import Mathlib

/-!
# promisify-child-process — verification of `src/index.ts`

A shallow embedding of the runtime core of `promisifyChildProcess`
(`src/index.ts`): the per-adapter capture state, the `capture` closure
that accumulates stream chunks under the `maxBuffer` cap, the `done`
settlement handler, and the callback wrapper `promisifyExecMethod`.

Modelling conventions:
* byte buffers are `List Nat`; a string chunk is normalised to bytes
  before its length is inspected, exactly as `Buffer.from(data)` does,
  so chunks arrive as byte lists;
* a JS error object is a record of its `message` plus the properties
  this library reads or writes; `Option (Option _)` distinguishes a
  missing property (`none`) from a property set to `null` (`some none`),
  which is what the `in` operator observes;
* the promise executor's closure state (`bufferSize`, `error`, the two
  chunk arrays, the attached listeners, the `child.kill` calls, and the
  promise's settlement) is one record `AdapterState`; each event handler
  of the source becomes one branch of a `step` function;
* `child.kill(...)` is modelled by appending the signal to a `kills`
  log, since the claims are about which kill requests are issued.
-/

/-- A buffer encoding name accepted by `buffer.toString(encoding)`. -/
inductive BufferEnc
  | utf8
  | ascii
  | latin1
  | hex
  | base64
  deriving DecidableEq, Repr

/-- The JS value of the `encoding` option: absent, `null`, the literal
string `'buffer'`, or a real `BufferEncoding`. `absent` and `null` are
separate because `options?.encoding` distinguishes them syntactically,
though `encoding != null` merges them. -/
inductive EncodingOpt
  | absent
  | null
  | buffer
  | enc (e : BufferEnc)
  deriving DecidableEq, Repr

/-- JS loose inequality `encoding != null`: false exactly on `null` and
`undefined`. -/
def EncodingOpt.neNull : EncodingOpt → Bool
  | .absent => false
  | .null => false
  | .buffer => true
  | .enc _ => true

/-- The options record consumed by `promisifyChildProcess`:
`encoding`, `maxBuffer`, `killSignal` (signal names as strings). -/
structure Options where
  encoding : EncodingOpt
  maxBuffer : Option Nat
  killSignal : Option String
  deriving DecidableEq, Repr

/-- `const captureStdio = encoding != null || options?.maxBuffer != null`. -/
def captureStdio (opts : Options) : Bool :=
  opts.encoding.neNull || opts.maxBuffer.isSome

/-- `const maxBuffer = options?.maxBuffer ?? 1024 * 1024` — `??` keeps an
explicit `0`. -/
def maxBufferOf (opts : Options) : Nat :=
  opts.maxBuffer.getD (1024 * 1024)

/-- Which standard streams exist on the wrapped `ChildProcess` handle
(`child.stdout` / `child.stderr` may be `null`, e.g. under
`stdio: 'inherit'`). -/
structure ChildStreams where
  hasStdout : Bool
  hasStderr : Bool
  deriving DecidableEq, Repr

/-- The value a finalized capture contributes to the settled result:
`undefined`, a `Buffer`, or a string decoded with some encoding (kept
symbolically as the encoding plus the raw bytes). -/
inductive OutValue
  | absent
  | bytes (data : List Nat)
  | text (e : BufferEnc) (data : List Nat)
  deriving DecidableEq, Repr

/-- A JS `Error` object restricted to the properties this library reads
or writes. A field `none` means the property is missing (`'x' in e` is
false); `some v` means it is present with value `v`, where `v` itself
may be JS `null`. -/
structure ErrObj where
  message : String
  code : Option (Option Int)
  signal : Option (Option String)
  killed : Option Bool
  stdout : Option OutValue
  stderr : Option OutValue
  deriving DecidableEq, Repr

/-- `new Error(msg)`: an error with no extra own properties. -/
def mkErr (msg : String) : ErrObj :=
  { message := msg, code := none, signal := none, killed := none,
    stdout := none, stderr := none }

/-- The object passed to `resolve`:
`{ stderr, stdout, code, signal, killed: false }`. -/
structure SuccessResult where
  stdout : OutValue
  stderr : OutValue
  code : Option Int
  signal : Option String
  killed : Bool
  deriving DecidableEq, Repr

/-- How the adapter's promise settled. -/
inductive Outcome
  | resolved (r : SuccessResult)
  | rejected (e : ErrObj)
  deriving DecidableEq, Repr

/-- The JS value read from the settled outcome's `stdout` (reading a
missing property yields `undefined`). -/
def Outcome.stdoutVal : Outcome → OutValue
  | .resolved r => r.stdout
  | .rejected e => e.stdout.getD .absent

/-- The JS value read from the settled outcome's `stderr`. -/
def Outcome.stderrVal : Outcome → OutValue
  | .resolved r => r.stderr
  | .rejected e => e.stderr.getD .absent

/-- The mutable closure state of one `promisifyChildProcess` promise
executor. `listening` records whether the internal listeners installed
at construction are still attached (they are all removed together at
the top of `done`). `kills` logs every `child.kill(...)` call. -/
structure AdapterState where
  bufferSize : Nat
  error : Option ErrObj
  stdoutChunks : Option (List (List Nat))
  stderrChunks : Option (List (List Nat))
  listening : Bool
  settled : Option Outcome
  kills : List String
  deriving DecidableEq, Repr

/-- The state right after the executor body ran: chunk arrays exist for
a stream iff `captureStdio` holds and the handle has that stream. -/
def initState (child : ChildStreams) (opts : Options) : AdapterState :=
  { bufferSize := 0
    error := none
    stdoutChunks := if captureStdio opts && child.hasStdout then some [] else none
    stderrChunks := if captureStdio opts && child.hasStderr then some [] else none
    listening := true
    settled := none
    kills := [] }

/-- The body of the `capture(chunks)` closure applied to one `data`
event. It reads and writes the shared `bufferSize`/`error` state and the
per-stream `chunks` array:
```
const remaining = Math.max(0, maxBuffer - bufferSize)
bufferSize += Math.min(remaining, data.length)
if (data.length > remaining) {
  error = new Error('maxBuffer exceeded')
  child.kill(killSignal ?? 'SIGTERM')
  data = data.subarray(0, remaining)
}
chunks.push(data)
```
`Math.max(0, a - b)` is `Nat` truncated subtraction. -/
def capture (maxBuffer : Nat) (killSignal : Option String)
    (st : AdapterState) (chunks : List (List Nat)) (data : List Nat) :
    AdapterState × List (List Nat) :=
  let remaining := maxBuffer - st.bufferSize
  let st := { st with bufferSize := st.bufferSize + min remaining data.length }
  if data.length > remaining then
    ({ st with
        error := some (mkErr "maxBuffer exceeded")
        kills := st.kills ++ [killSignal.getD "SIGTERM"] },
      chunks ++ [data.take remaining])
  else
    (st, chunks ++ [data])

/-- `joinChunks(chunks, encoding)`: `undefined` when the chunk list was
never created, otherwise `Buffer.concat(chunks)` decoded iff `encoding`
is truthy and not `'buffer'`. -/
def joinChunks (chunks : Option (List (List Nat))) (encoding : EncodingOpt) :
    OutValue :=
  match chunks with
  | none => .absent
  | some cs =>
    match encoding with
    | .enc e => .text e cs.flatten
    | _ => .bytes cs.flatten

/-- JS template interpolation of a `number | null` value. -/
def jsCodeStr : Option Int → String
  | none => "null"
  | some c => toString c

/-- The `done(code, signal)` handler: detach every internal listener,
finalize both captures, and settle. A rejection is
`Object.assign(error || new Error(...), { code, signal, killed, stdout, stderr })`;
settlement is guarded the way a JS promise guards `resolve`/`reject`
(a later call is a no-op). -/
def done (opts : Options) (st : AdapterState)
    (code : Option Int) (signal : Option String) : AdapterState :=
  let st := { st with listening := false }
  let stdout := joinChunks st.stdoutChunks opts.encoding
  let stderr := joinChunks st.stderrChunks opts.encoding
  if st.error.isSome || (match code with | some c => c != 0 | none => false)
      || signal.isSome then
    let base := st.error.getD (mkErr
      (match signal with
        | some s => "Process was killed with " ++ s
        | none => "Process exited with code " ++ jsCodeStr code))
    let e := { base with
        code := some code
        signal := some signal
        killed := some signal.isSome
        stdout := some stdout
        stderr := some stderr }
    { st with settled := if st.settled.isSome then st.settled
                         else some (.rejected e) }
  else
    { st with settled := if st.settled.isSome then st.settled
                         else some (.resolved
      { stderr := stderr, stdout := stdout, code := code, signal := signal,
        killed := false }) }

/-- One notification from the wrapped handle: a `data` event on stdout
or stderr (payload already normalised to bytes), an `error` event, or
the `close` event with its `(code, signal)` pair. -/
inductive ChildEvent
  | stdoutData (data : List Nat)
  | stderrData (data : List Nat)
  | errorEvent (err : ErrObj)
  | closeEvent (code : Option Int) (signal : Option String)
  deriving DecidableEq, Repr

/-- Whether an event is a terminal lifecycle notification. -/
def ChildEvent.isTerminal : ChildEvent → Bool
  | .errorEvent _ => true
  | .closeEvent _ _ => true
  | _ => false

/-- Dispatch of one event against the adapter. A handler runs only
while its listener is attached (`listening`); a data handler moreover
exists only when the chunk array for its stream was created. The
`error` handler is `onError`: record the error, then `done()` with the
default arguments `(null, null)`. -/
def step (opts : Options) (st : AdapterState) (ev : ChildEvent) : AdapterState :=
  match ev with
  | .stdoutData data =>
    if st.listening then
      match st.stdoutChunks with
      | some chunks =>
        let r := capture (maxBufferOf opts) opts.killSignal st chunks data
        { r.1 with stdoutChunks := some r.2 }
      | none => st
    else st
  | .stderrData data =>
    if st.listening then
      match st.stderrChunks with
      | some chunks =>
        let r := capture (maxBufferOf opts) opts.killSignal st chunks data
        { r.1 with stderrChunks := some r.2 }
      | none => st
    else st
  | .errorEvent err =>
    if st.listening then done opts { st with error := some err } none none
    else st
  | .closeEvent code signal =>
    if st.listening then done opts st code signal
    else st

/-- Process a whole notification sequence. -/
def run (opts : Options) (st : AdapterState) (evs : List ChildEvent) :
    AdapterState :=
  evs.foldl (step opts) st

/-- `isChildProcessError(error)`:
`error instanceof Error && 'code' in error && 'signal' in error`
(the `instanceof` test is carried by the `ErrObj` type). -/
def isChildProcessError (e : ErrObj) : Bool :=
  e.code.isSome && e.signal.isSome

/-- Result of calling the wrapper built by `promisifyExecMethod`: either
the adapter around the handle the wrapped primitive returned, or the
synchronous `throw` taken when the primitive returned no handle. -/
inductive ExecResult
  | adapter (child : ChildStreams)
  | thrown (msg : String)
  deriving DecidableEq, Repr

/-- The synchronous part of `promisifyExecMethod`'s returned wrapper:
call the primitive (represented by the handle it produces, `none` when
it fails to return one), then
`if (!child) throw new Error('unexpected error: child has not been initialized')`. -/
def promisifyExecMethod (methodChild : Option ChildStreams) : ExecResult :=
  match methodChild with
  | some child => .adapter child
  | none => .thrown "unexpected error: child has not been initialized"

/-- The completion callback `promisifyExecMethod` hands to the wrapped
primitive: an error rejects with `Object.assign(err, { stdout, stderr })`,
otherwise resolve `{ code: 0, signal: null, killed: false, stdout, stderr }`. -/
def execCallback (err : Option ErrObj) (stdout stderr : OutValue) : Outcome :=
  match err with
  | some e => .rejected { e with stdout := some stdout, stderr := some stderr }
  | none => .resolved
      { code := some 0, signal := none, killed := false,
        stdout := stdout, stderr := stderr }

/-- A process-level failure visible at a terminal notification: an
`error` event, or a `close` whose classification rejects (recorded
error, non-zero code, or signal). -/
def failureCond (st : AdapterState) : ChildEvent → Bool
  | .errorEvent _ => true
  | .closeEvent c s =>
    st.error.isSome || (match c with | some x => x != 0 | none => false)
      || s.isSome
  | _ => false

/-- Whether a notification sequence consists of data events only. -/
def dataOnly : List ChildEvent → Bool
  | [] => true
  | .stdoutData _ :: rest => dataOnly rest
  | .stderrData _ :: rest => dataOnly rest
  | _ => false

/-- Byte length carried by one event (0 for non-data events). -/
def dataLen : ChildEvent → Nat
  | .stdoutData d => d.length
  | .stderrData d => d.length
  | _ => 0

/-- Total bytes carried by a notification sequence, both streams
combined. -/
def totalDataLen (evs : List ChildEvent) : Nat :=
  (evs.map dataLen).sum

/-- Combined number of bytes currently captured across both streams. -/
def flatLen (st : AdapterState) : Nat :=
  (st.stdoutChunks.getD []).flatten.length
    + (st.stderrChunks.getD []).flatten.length

/-- Test fixture: no capture options at all. -/
def optsNoCap : Options :=
  { encoding := .absent, maxBuffer := none, killSignal := none }

/-- Test fixture: `maxBuffer: 1`. -/
def opts1 : Options :=
  { encoding := .absent, maxBuffer := some 1, killSignal := none }

/-- Test fixture: `maxBuffer: 2`. -/
def opts2 : Options :=
  { encoding := .absent, maxBuffer := some 2, killSignal := none }

/-- Test fixture: a handle with both standard streams piped. -/
def bothStreams : ChildStreams := { hasStdout := true, hasStderr := true }

/-- Test fixture: a handle whose stderr is not piped. -/
def stdoutOnly : ChildStreams := { hasStdout := true, hasStderr := false }

/-! ## Basic behaviour of `done` and `step` -/

lemma done_listening_false (opts : Options) (st : AdapterState)
    (c : Option Int) (s : Option String) :
    (done opts st c s).listening = false := by
  unfold done
  dsimp only
  split <;> rfl

lemma done_stdoutChunks (opts : Options) (st : AdapterState)
    (c : Option Int) (s : Option String) :
    (done opts st c s).stdoutChunks = st.stdoutChunks := by
  unfold done
  dsimp only
  split <;> rfl

lemma done_stderrChunks (opts : Options) (st : AdapterState)
    (c : Option Int) (s : Option String) :
    (done opts st c s).stderrChunks = st.stderrChunks := by
  unfold done
  dsimp only
  split <;> rfl

lemma done_settled_isSome (opts : Options) (st : AdapterState)
    (c : Option Int) (s : Option String) (h : st.settled = none) :
    (done opts st c s).settled.isSome = true := by
  unfold done
  dsimp only
  split <;> simp [h]

lemma step_not_listening (opts : Options) (st : AdapterState)
    (ev : ChildEvent) (h : st.listening = false) :
    step opts st ev = st := by
  cases ev <;> simp [step, h]

lemma run_not_listening (opts : Options) (evs : List ChildEvent)
    (st : AdapterState) (h : st.listening = false) :
    run opts st evs = st := by
  induction evs with
  | nil => rfl
  | cons e rest ih =>
    show run opts (step opts st e) rest = st
    rw [step_not_listening opts st e h]
    exact ih

lemma step_terminal_listening_false (opts : Options) (st : AdapterState)
    (ev : ChildEvent) (hl : st.listening = true) (ht : ev.isTerminal = true) :
    (step opts st ev).listening = false := by
  cases ev with
  | stdoutData d => simp [ChildEvent.isTerminal] at ht
  | stderrData d => simp [ChildEvent.isTerminal] at ht
  | errorEvent err => simp [step, hl, done_listening_false]
  | closeEvent c s => simp [step, hl, done_listening_false]

lemma step_terminal_settled (opts : Options) (st : AdapterState)
    (ev : ChildEvent) (hl : st.listening = true) (hs : st.settled = none)
    (ht : ev.isTerminal = true) :
    (step opts st ev).settled.isSome = true := by
  cases ev with
  | stdoutData d => simp [ChildEvent.isTerminal] at ht
  | stderrData d => simp [ChildEvent.isTerminal] at ht
  | errorEvent err =>
    simp only [step, hl, if_true]
    exact done_settled_isSome opts _ none none hs
  | closeEvent c s =>
    simp only [step, hl, if_true]
    exact done_settled_isSome opts st c s hs

/-! ## Claim theorems: close classification and settlement -/

/-- C3: on a `close` notification delivered to an adapter that is still
listening, has recorded no error, and is unsettled: `(0, null)`
resolves with the finalized captures; a non-zero non-null code rejects
with message `Process exited with code {code}` carrying that code and
`signal = null`; a non-null signal (code null) rejects with message
`Process was killed with {signal}` carrying that signal and
`code = null`; every branch carries the finalized stdout/stderr. -/
theorem close_classification (opts : Options) (st : AdapterState)
    (hl : st.listening = true) (he : st.error = none) (hs : st.settled = none) :
    (step opts st (.closeEvent (some 0) none)).settled =
      some (.resolved
        { stdout := joinChunks st.stdoutChunks opts.encoding
          stderr := joinChunks st.stderrChunks opts.encoding
          code := some 0, signal := none, killed := false }) ∧
    (∀ c : Int, c ≠ 0 →
      (step opts st (.closeEvent (some c) none)).settled =
        some (.rejected
          { message := "Process exited with code " ++ toString c
            code := some (some c), signal := some none, killed := some false
            stdout := some (joinChunks st.stdoutChunks opts.encoding)
            stderr := some (joinChunks st.stderrChunks opts.encoding) })) ∧
    (∀ s : String,
      (step opts st (.closeEvent none (some s))).settled =
        some (.rejected
          { message := "Process was killed with " ++ s
            code := some none, signal := some (some s), killed := some true
            stdout := some (joinChunks st.stdoutChunks opts.encoding)
            stderr := some (joinChunks st.stderrChunks opts.encoding) })) := by
  refine ⟨?_, ?_, ?_⟩
  · simp [step, hl, done, he, hs]
  · intro c hc
    simp [step, hl, done, he, hs, hc, mkErr, jsCodeStr]
  · intro s
    simp [step, hl, done, he, hs, mkErr]

/-- Witness for `close_classification` at a concrete adapter state with
captured output, code 2 and signal SIGINT. -/
theorem close_classification_witness :
    ((initState bothStreams opts2).listening = true ∧
      (initState bothStreams opts2).error = none ∧
      (initState bothStreams opts2).settled = none) ∧
    (step opts2 (initState bothStreams opts2)
        (.closeEvent (some 2) none)).settled =
      some (.rejected
        { message := "Process exited with code 2"
          code := some (some 2), signal := some none, killed := some false
          stdout := some (.bytes []), stderr := some (.bytes []) }) ∧
    (step opts2 (initState bothStreams opts2)
        (.closeEvent none (some "SIGINT"))).settled =
      some (.rejected
        { message := "Process was killed with SIGINT"
          code := some none, signal := some (some "SIGINT")
          killed := some true
          stdout := some (.bytes []), stderr := some (.bytes []) }) := by
  have h := close_classification opts2 (initState bothStreams opts2)
    (by decide) (by decide) (by decide)
  exact ⟨⟨by decide, by decide, by decide⟩,
    by simpa using h.2.1 2 (by decide),
    by simpa using h.2.2 "SIGINT"⟩

/-- C4: settlement happens exactly once. While the adapter is running
(listeners attached, unsettled), the first terminal notification
settles the promise and detaches the listeners; once the listeners are
detached, every further notification — terminal or data — leaves the
whole adapter state (settled value, buffers, everything) unchanged, so
any suffix of later notifications is a no-op. -/
theorem settle_exactly_once (opts : Options) (st : AdapterState) :
    (st.listening = false → ∀ ev, step opts st ev = st) ∧
    (st.listening = true → st.settled = none →
      ∀ ev, ev.isTerminal = true →
        (step opts st ev).settled.isSome = true ∧
        (step opts st ev).listening = false ∧
        ∀ rest, run opts (step opts st ev) rest = step opts st ev) := by
  refine ⟨fun h ev => step_not_listening opts st ev h, ?_⟩
  intro hl hs ev ht
  refine ⟨step_terminal_settled opts st ev hl hs ht,
    step_terminal_listening_false opts st ev hl ht, fun rest => ?_⟩
  exact run_not_listening opts rest _
    (step_terminal_listening_false opts st ev hl ht)

/-- Witness for `settle_exactly_once`: a concrete running adapter, a
`close` notification, then a duplicate `close` and an `error` that are
both discarded. -/
theorem settle_exactly_once_witness :
    ((initState bothStreams opts2).listening = true ∧
      (initState bothStreams opts2).settled = none ∧
      (ChildEvent.closeEvent (some 0) none).isTerminal = true) ∧
    (step opts2 (initState bothStreams opts2)
        (.closeEvent (some 0) none)).settled.isSome = true ∧
    (step opts2 (initState bothStreams opts2)
        (.closeEvent (some 0) none)).listening = false ∧
    run opts2
        (step opts2 (initState bothStreams opts2) (.closeEvent (some 0) none))
        [.closeEvent (some 1) none, .errorEvent (mkErr "late"),
          .stdoutData [104]] =
      step opts2 (initState bothStreams opts2) (.closeEvent (some 0) none) := by
  have h := (settle_exactly_once opts2 (initState bothStreams opts2)).2
    (by decide) (by decide) (.closeEvent (some 0) none) (by decide)
  exact ⟨⟨by decide, by decide, by decide⟩, h.1, h.2.1, h.2.2 _⟩

/-- C7: in every outcome settled at a `close` notification, the
`killed` flag equals `signal != null`: a resolution always carries
`killed = false`, and a rejection carries `killed = true` exactly when
the close's signal is non-null (which is how an overflow-triggered kill
surfaces, via the signal that terminated the process). -/
theorem killed_iff_signal (opts : Options) (st : AdapterState)
    (c : Option Int) (s : Option String)
    (hl : st.listening = true) (hs : st.settled = none) :
    (∀ r, (step opts st (.closeEvent c s)).settled = some (.resolved r) →
      r.killed = false) ∧
    (∀ e, (step opts st (.closeEvent c s)).settled = some (.rejected e) →
      e.killed = some s.isSome) := by
  constructor
  · intro r hr
    simp only [step, hl, if_true, done, hs, Option.isSome_none,
      Bool.false_eq_true, if_false] at hr
    split at hr
    · simp at hr
    · simp only [Option.some.injEq, Outcome.resolved.injEq] at hr
      subst hr
      rfl
  · intro e he
    simp only [step, hl, if_true, done, hs, Option.isSome_none,
      Bool.false_eq_true, if_false] at he
    split at he
    · simp only [Option.some.injEq, Outcome.rejected.injEq] at he
      subst he
      rfl
    · simp at he

/-- Witness for `killed_iff_signal`: a close with signal SIGTERM
rejects with `killed = true`. -/
theorem killed_iff_signal_witness :
    ((initState bothStreams opts2).listening = true ∧
      (initState bothStreams opts2).settled = none) ∧
    (∀ e, (step opts2 (initState bothStreams opts2)
        (.closeEvent none (some "SIGTERM"))).settled = some (.rejected e) →
      e.killed = some true) := by
  have h := (killed_iff_signal opts2 (initState bothStreams opts2)
    none (some "SIGTERM") (by decide) (by decide)).2
  exact ⟨⟨by decide, by decide⟩, fun e he => h e he⟩

/-- C9: every rejection produced by the settlement path — whether it
came from the `error` event or from `close` classification — is built
by `Object.assign(..., { code, signal, killed, stdout, stderr })`, so
it carries all five properties (code/signal possibly null) and
`isChildProcessError` accepts it. -/
theorem rejection_carries_properties (opts : Options) (st : AdapterState)
    (ev : ChildEvent) (hl : st.listening = true) (hs : st.settled = none)
    (ht : ev.isTerminal = true) :
    ∀ e, (step opts st ev).settled = some (.rejected e) →
      e.code.isSome = true ∧ e.signal.isSome = true ∧
      e.killed.isSome = true ∧ e.stdout.isSome = true ∧
      e.stderr.isSome = true ∧ isChildProcessError e = true := by
  intro e he
  cases ev with
  | stdoutData d => simp [ChildEvent.isTerminal] at ht
  | stderrData d => simp [ChildEvent.isTerminal] at ht
  | errorEvent err =>
    simp only [step, hl, if_true, done, hs, Option.isSome_none,
      Bool.false_eq_true, if_false, Option.isSome_some, Bool.true_or,
      if_true] at he
    simp only [Option.some.injEq, Outcome.rejected.injEq] at he
    subst he
    exact ⟨rfl, rfl, rfl, rfl, rfl, rfl⟩
  | closeEvent c s =>
    simp only [step, hl, if_true, done, hs, Option.isSome_none,
      Bool.false_eq_true, if_false] at he
    split at he
    · simp only [Option.some.injEq, Outcome.rejected.injEq] at he
      subst he
      exact ⟨rfl, rfl, rfl, rfl, rfl, rfl⟩
    · simp at he

/-- Witness for `rejection_carries_properties`: an adapter rejected by
a spawn `error` event passes `isChildProcessError`. -/
theorem rejection_carries_properties_witness :
    ((initState bothStreams optsNoCap).listening = true ∧
      (initState bothStreams optsNoCap).settled = none ∧
      (ChildEvent.errorEvent (mkErr "spawn ENOENT")).isTerminal = true) ∧
    (∀ e, (step optsNoCap (initState bothStreams optsNoCap)
        (.errorEvent (mkErr "spawn ENOENT"))).settled = some (.rejected e) →
      e.code.isSome = true ∧ e.signal.isSome = true ∧
      e.killed.isSome = true ∧ e.stdout.isSome = true ∧
      e.stderr.isSome = true ∧ isChildProcessError e = true) := by
  exact ⟨⟨by decide, by decide, by decide⟩,
    rejection_carries_properties optsNoCap (initState bothStreams optsNoCap)
      (.errorEvent (mkErr "spawn ENOENT")) (by decide) (by decide) (by decide)⟩

/-- C10: when an error has been recorded before `close` (in particular
the overflow error, whose message is exactly `maxBuffer exceeded` —
second conjunct), the close rejects with that recorded error object
itself, message untouched rather than a synthesized
`Process exited with code ...` / `Process was killed with ...` message,
while attaching the close's `code` and `signal` and both finalized
(truncated) captures as properties of that same error. -/
theorem overflow_error_priority (opts : Options) (st : AdapterState)
    (c : Option Int) (s : Option String) (err : ErrObj)
    (hl : st.listening = true) (hs : st.settled = none)
    (he : st.error = some err) :
    (step opts st (.closeEvent c s)).settled =
      some (.rejected
        { err with
            code := some c, signal := some s, killed := some s.isSome
            stdout := some (joinChunks st.stdoutChunks opts.encoding)
            stderr := some (joinChunks st.stderrChunks opts.encoding) }) ∧
    (∀ (mb : Nat) (ks : Option String) (st2 : AdapterState)
        (chunks : List (List Nat)) (data : List Nat),
      data.length > mb - st2.bufferSize →
        (capture mb ks st2 chunks data).1.error =
          some (mkErr "maxBuffer exceeded")) := by
  constructor
  · simp [step, hl, done, hs, he]
  · intro mb ks st2 chunks data hdata
    simp [capture, hdata]

/-- Witness for `overflow_error_priority`: `maxBuffer: 1` with a 2-byte
stdout chunk, then `close(0, null)` — the promise rejects with
`maxBuffer exceeded` (not a synthesized exit message) and the 1-byte
truncated stdout. -/
theorem overflow_error_priority_witness :
    ((run opts1 (initState bothStreams opts1)
        [.stdoutData [104, 101]]).listening = true ∧
      (run opts1 (initState bothStreams opts1)
        [.stdoutData [104, 101]]).settled = none ∧
      (run opts1 (initState bothStreams opts1)
        [.stdoutData [104, 101]]).error =
        some (mkErr "maxBuffer exceeded")) ∧
    (step opts1 (run opts1 (initState bothStreams opts1)
        [.stdoutData [104, 101]]) (.closeEvent (some 0) none)).settled =
      some (.rejected
        { message := "maxBuffer exceeded"
          code := some (some 0), signal := some none, killed := some false
          stdout := some (.bytes [104]), stderr := some (.bytes []) }) ∧
    (2 : Nat) > 1 - (0 : Nat) := by
  have h := (overflow_error_priority opts1
    (run opts1 (initState bothStreams opts1) [.stdoutData [104, 101]])
    (some 0) none (mkErr "maxBuffer exceeded")
    (by decide) (by decide) (by decide)).1
  exact ⟨⟨by decide, by decide, by decide⟩, by simpa using h, by decide⟩

/-- C6: with `maxBuffer: 0`, capture is enabled (`maxBuffer != null`)
and the `??` default keeps the cap at 0 rather than replacing it, so
the very first non-empty data chunk records the overflow error, issues
one `child.kill` with the configured kill signal (default SIGTERM), and
captures zero bytes. -/
theorem zero_maxBuffer_overflow (enc : EncodingOpt) (ks : Option String)
    (data : List Nat) (hd : data ≠ []) :
    captureStdio { encoding := enc, maxBuffer := some 0, killSignal := ks }
      = true ∧
    maxBufferOf { encoding := enc, maxBuffer := some 0, killSignal := ks }
      = 0 ∧
    (step { encoding := enc, maxBuffer := some 0, killSignal := ks }
        (initState bothStreams
          { encoding := enc, maxBuffer := some 0, killSignal := ks })
        (.stdoutData data)).error = some (mkErr "maxBuffer exceeded") ∧
    (step { encoding := enc, maxBuffer := some 0, killSignal := ks }
        (initState bothStreams
          { encoding := enc, maxBuffer := some 0, killSignal := ks })
        (.stdoutData data)).kills = [ks.getD "SIGTERM"] ∧
    (step { encoding := enc, maxBuffer := some 0, killSignal := ks }
        (initState bothStreams
          { encoding := enc, maxBuffer := some 0, killSignal := ks })
        (.stdoutData data)).stdoutChunks = some [[]] := by
  have hpos : 0 < data.length := List.length_pos.mpr hd
  refine ⟨by simp [captureStdio], rfl, ?_, ?_, ?_⟩ <;>
    simp [step, initState, captureStdio, capture, maxBufferOf, hpos,
      List.take_zero, bothStreams]

/-- Witness for `zero_maxBuffer_overflow`: one-byte chunk, explicit
`killSignal: 'SIGKILL'`. -/
theorem zero_maxBuffer_overflow_witness :
    ([104] : List Nat) ≠ [] ∧
    (step { encoding := .absent, maxBuffer := some 0,
            killSignal := some "SIGKILL" }
        (initState bothStreams
          { encoding := .absent, maxBuffer := some 0,
            killSignal := some "SIGKILL" })
        (.stdoutData [104])).error = some (mkErr "maxBuffer exceeded") ∧
    (step { encoding := .absent, maxBuffer := some 0,
            killSignal := some "SIGKILL" }
        (initState bothStreams
          { encoding := .absent, maxBuffer := some 0,
            killSignal := some "SIGKILL" })
        (.stdoutData [104])).kills = ["SIGKILL"] ∧
    (step { encoding := .absent, maxBuffer := some 0,
            killSignal := some "SIGKILL" }
        (initState bothStreams
          { encoding := .absent, maxBuffer := some 0,
            killSignal := some "SIGKILL" })
        (.stdoutData [104])).stdoutChunks = some [[]] := by
  have h := zero_maxBuffer_overflow .absent (some "SIGKILL") [104] (by decide)
  exact ⟨by decide, h.2.2.1, h.2.2.2.1, h.2.2.2.2⟩

/-- C8: process-level failures reach the caller only as a rejected
outcome: whenever a terminal notification satisfies the failure
condition (an `error` event, a recorded error, a non-zero code, or a
signal), the step settles with `Outcome.rejected`, a value, while in
this model the adapter's construction and handlers are total functions
with no throw at all; the one synchronous `throw` in the source is in
`promisifyExecMethod`, taken exactly when the wrapped callback-style
primitive returns no handle; the exec completion callback likewise
delivers its error by rejecting. -/
theorem failures_via_rejection_only :
    (∀ mc : Option ChildStreams,
      (∃ m, promisifyExecMethod mc = .thrown m) ↔ mc = none) ∧
    (∀ (opts : Options) (st : AdapterState) (ev : ChildEvent),
      st.listening = true → st.settled = none → failureCond st ev = true →
        ∃ e, (step opts st ev).settled = some (.rejected e)) ∧
    (∀ (err : ErrObj) (so se : OutValue),
      ∃ e, execCallback (some err) so se = .rejected e) := by
  refine ⟨?_, ?_, fun err so se => ⟨_, rfl⟩⟩
  · intro mc
    constructor
    · rintro ⟨m, hm⟩
      cases mc with
      | none => rfl
      | some child => simp [promisifyExecMethod] at hm
    · rintro rfl
      exact ⟨_, rfl⟩
  · intro opts st ev hl hs hf
    cases ev with
    | stdoutData d => simp [failureCond] at hf
    | stderrData d => simp [failureCond] at hf
    | errorEvent err =>
      simp [step, hl, done, hs]
    | closeEvent c s =>
      simp only [failureCond] at hf
      simp only [step, hl, if_true, done, hs, Option.isSome_none,
        Bool.false_eq_true, if_false, hf, if_true]
      exact ⟨_, rfl⟩

/-- Witness for `failures_via_rejection_only`: the wrapper throws on a
missing handle; a non-zero exit is delivered as a rejection. -/
theorem failures_via_rejection_only_witness :
    (∃ m, promisifyExecMethod none = .thrown m) ∧
    ((initState bothStreams opts2).listening = true ∧
      (initState bothStreams opts2).settled = none ∧
      failureCond (initState bothStreams opts2)
        (.closeEvent (some 2) none) = true) ∧
    (∃ e, (step opts2 (initState bothStreams opts2)
        (.closeEvent (some 2) none)).settled = some (.rejected e)) := by
  refine ⟨(failures_via_rejection_only.1 none).mpr rfl,
    ⟨by decide, by decide, by decide⟩,
    failures_via_rejection_only.2.1 opts2 (initState bothStreams opts2)
      (.closeEvent (some 2) none) (by decide) (by decide) (by decide)⟩

/-! ## Absence of capture -/

lemma capture_proj (mb : Nat) (ks : Option String) (st : AdapterState)
    (chunks : List (List Nat)) (data : List Nat) :
    (capture mb ks st chunks data).1.stdoutChunks = st.stdoutChunks ∧
    (capture mb ks st chunks data).1.stderrChunks = st.stderrChunks ∧
    (capture mb ks st chunks data).1.listening = st.listening ∧
    (capture mb ks st chunks data).1.settled = st.settled := by
  unfold capture
  dsimp only
  split <;> exact ⟨rfl, rfl, rfl, rfl⟩

lemma step_stdoutChunks_none (opts : Options) (st : AdapterState)
    (ev : ChildEvent) (h : st.stdoutChunks = none) :
    (step opts st ev).stdoutChunks = none := by
  cases ev with
  | stdoutData d => simp [step, h]
  | stderrData d =>
    unfold step
    by_cases hl : st.listening <;> simp only [hl, if_true, if_false]
    · cases hce : st.stderrChunks <;>
        simp [hce, (capture_proj _ _ _ _ _).1, h]
    · exact h
  | errorEvent err =>
    by_cases hl : st.listening <;>
      simp [step, hl, done_stdoutChunks, h]
  | closeEvent c s =>
    by_cases hl : st.listening <;>
      simp [step, hl, done_stdoutChunks, h]

lemma step_stderrChunks_none (opts : Options) (st : AdapterState)
    (ev : ChildEvent) (h : st.stderrChunks = none) :
    (step opts st ev).stderrChunks = none := by
  cases ev with
  | stderrData d => simp [step, h]
  | stdoutData d =>
    unfold step
    by_cases hl : st.listening <;> simp only [hl, if_true, if_false]
    · cases hce : st.stdoutChunks <;>
        simp [hce, (capture_proj _ _ _ _ _).2.1, h]
    · exact h
  | errorEvent err =>
    by_cases hl : st.listening <;>
      simp [step, hl, done_stderrChunks, h]
  | closeEvent c s =>
    by_cases hl : st.listening <;>
      simp [step, hl, done_stderrChunks, h]

lemma done_settled_values (opts : Options) (st : AdapterState)
    (c : Option Int) (s : Option String) (h : st.settled = none) :
    ∀ out, (done opts st c s).settled = some out →
      out.stdoutVal = joinChunks st.stdoutChunks opts.encoding ∧
      out.stderrVal = joinChunks st.stderrChunks opts.encoding := by
  intro out hout
  unfold done at hout
  dsimp only at hout
  split at hout <;> simp only [h, Option.isSome_none, Bool.false_eq_true,
    if_false, Option.some.injEq] at hout <;> subst hout <;>
    exact ⟨rfl, rfl⟩

lemma step_settled_stdout_absent (opts : Options) (st : AdapterState)
    (ev : ChildEvent) (hco : st.stdoutChunks = none)
    (hs : ∀ out, st.settled = some out → out.stdoutVal = OutValue.absent) :
    ∀ out, (step opts st ev).settled = some out →
      out.stdoutVal = OutValue.absent := by
  intro out hout
  cases ev with
  | stdoutData d =>
    simp only [step, hco] at hout
    split at hout <;> exact hs out hout
  | stderrData d =>
    by_cases hl : st.listening
    · simp only [step, hl, if_true] at hout
      cases hch : st.stderrChunks with
      | none =>
        rw [hch] at hout
        exact hs out hout
      | some cs =>
        rw [hch] at hout
        dsimp only at hout
        rw [(capture_proj _ _ _ _ _).2.2.2] at hout
        exact hs out hout
    · simp only [step, hl, Bool.false_eq_true, if_false] at hout
      exact hs out hout
  | errorEvent err =>
    by_cases hl : st.listening
    · simp only [step, hl, if_true] at hout
      by_cases hset : st.settled = none
      · have := done_settled_values opts { st with error := some err }
          none none hset out hout
        simpa [hco, joinChunks] using this.1
      · obtain ⟨o, ho⟩ := Option.ne_none_iff_exists'.mp hset
        unfold done at hout
        dsimp only at hout
        split at hout <;>
          simp only [ho, Option.isSome_some, if_true] at hout <;>
          exact hs out (ho ▸ hout)
    · simp only [step, hl, Bool.false_eq_true, if_false] at hout
      exact hs out hout
  | closeEvent c s =>
    by_cases hl : st.listening
    · simp only [step, hl, if_true] at hout
      by_cases hset : st.settled = none
      · have := done_settled_values opts st c s hset out hout
        simpa [hco, joinChunks] using this.1
      · obtain ⟨o, ho⟩ := Option.ne_none_iff_exists'.mp hset
        unfold done at hout
        dsimp only at hout
        split at hout <;>
          simp only [ho, Option.isSome_some, if_true] at hout <;>
          exact hs out (ho ▸ hout)
    · simp only [step, hl, Bool.false_eq_true, if_false] at hout
      exact hs out hout

lemma step_settled_stderr_absent (opts : Options) (st : AdapterState)
    (ev : ChildEvent) (hce : st.stderrChunks = none)
    (hs : ∀ out, st.settled = some out → out.stderrVal = OutValue.absent) :
    ∀ out, (step opts st ev).settled = some out →
      out.stderrVal = OutValue.absent := by
  intro out hout
  cases ev with
  | stderrData d =>
    simp only [step, hce] at hout
    split at hout <;> exact hs out hout
  | stdoutData d =>
    by_cases hl : st.listening
    · simp only [step, hl, if_true] at hout
      cases hch : st.stdoutChunks with
      | none =>
        rw [hch] at hout
        exact hs out hout
      | some cs =>
        rw [hch] at hout
        dsimp only at hout
        rw [(capture_proj _ _ _ _ _).2.2.2] at hout
        exact hs out hout
    · simp only [step, hl, Bool.false_eq_true, if_false] at hout
      exact hs out hout
  | errorEvent err =>
    by_cases hl : st.listening
    · simp only [step, hl, if_true] at hout
      by_cases hset : st.settled = none
      · have := done_settled_values opts { st with error := some err }
          none none hset out hout
        simpa [hce, joinChunks] using this.2
      · obtain ⟨o, ho⟩ := Option.ne_none_iff_exists'.mp hset
        unfold done at hout
        dsimp only at hout
        split at hout <;>
          simp only [ho, Option.isSome_some, if_true] at hout <;>
          exact hs out (ho ▸ hout)
    · simp only [step, hl, Bool.false_eq_true, if_false] at hout
      exact hs out hout
  | closeEvent c s =>
    by_cases hl : st.listening
    · simp only [step, hl, if_true] at hout
      by_cases hset : st.settled = none
      · have := done_settled_values opts st c s hset out hout
        simpa [hce, joinChunks] using this.2
      · obtain ⟨o, ho⟩ := Option.ne_none_iff_exists'.mp hset
        unfold done at hout
        dsimp only at hout
        split at hout <;>
          simp only [ho, Option.isSome_some, if_true] at hout <;>
          exact hs out (ho ▸ hout)
    · simp only [step, hl, Bool.false_eq_true, if_false] at hout
      exact hs out hout

lemma run_settled_stdout_absent (opts : Options) (evs : List ChildEvent) :
    ∀ st : AdapterState, st.stdoutChunks = none →
      (∀ out, st.settled = some out → out.stdoutVal = OutValue.absent) →
      (∀ out, (run opts st evs).settled = some out →
        out.stdoutVal = OutValue.absent) := by
  induction evs with
  | nil => exact fun st _ hs => hs
  | cons e rest ih =>
    intro st hco hs
    exact ih (step opts st e) (step_stdoutChunks_none opts st e hco)
      (step_settled_stdout_absent opts st e hco hs)

lemma run_settled_stderr_absent (opts : Options) (evs : List ChildEvent) :
    ∀ st : AdapterState, st.stderrChunks = none →
      (∀ out, st.settled = some out → out.stderrVal = OutValue.absent) →
      (∀ out, (run opts st evs).settled = some out →
        out.stderrVal = OutValue.absent) := by
  induction evs with
  | nil => exact fun st _ hs => hs
  | cons e rest ih =>
    intro st hce hs
    exact ih (step opts st e) (step_stderrChunks_none opts st e hce)
      (step_settled_stderr_absent opts st e hce hs)

/-- C5: absence versus emptiness. When capture is disabled (`encoding`
absent or null and `maxBuffer` absent), the settled outcome's stdout
and stderr are `undefined` for every notification sequence, even one
full of data events; and independently, when the handle lacks a stream,
the corresponding field is `undefined` regardless of the capture
options. -/
theorem absent_without_capture (opts : Options) (child : ChildStreams)
    (evs : List ChildEvent) :
    (captureStdio opts = false →
      ∀ out, (run opts (initState child opts) evs).settled = some out →
        out.stdoutVal = OutValue.absent ∧ out.stderrVal = OutValue.absent) ∧
    (child.hasStdout = false →
      ∀ out, (run opts (initState child opts) evs).settled = some out →
        out.stdoutVal = OutValue.absent) ∧
    (child.hasStderr = false →
      ∀ out, (run opts (initState child opts) evs).settled = some out →
        out.stderrVal = OutValue.absent) := by
  refine ⟨fun hcap out hout => ?_, fun hstream out hout => ?_,
    fun hstream out hout => ?_⟩
  · constructor
    · exact run_settled_stdout_absent opts evs _
        (by simp [initState, hcap]) (by simp [initState]) out hout
    · exact run_settled_stderr_absent opts evs _
        (by simp [initState, hcap]) (by simp [initState]) out hout
  · exact run_settled_stdout_absent opts evs _
      (by simp [initState, hstream]) (by simp [initState]) out hout
  · exact run_settled_stderr_absent opts evs _
      (by simp [initState, hstream]) (by simp [initState]) out hout

/-- Witness for `absent_without_capture`: no capture options, output
produced, clean exit — the resolution carries `undefined` for both
fields. -/
theorem absent_without_capture_witness :
    captureStdio optsNoCap = false ∧
    (run optsNoCap (initState bothStreams optsNoCap)
        [.stdoutData [104, 105], .stderrData [33],
          .closeEvent (some 0) none]).settled =
      some (.resolved
        { stdout := .absent, stderr := .absent, code := some 0,
          signal := none, killed := false }) ∧
    (∀ out, (run optsNoCap (initState bothStreams optsNoCap)
        [.stdoutData [104, 105], .stderrData [33],
          .closeEvent (some 0) none]).settled = some out →
      out.stdoutVal = OutValue.absent ∧ out.stderrVal = OutValue.absent) := by
  refine ⟨by decide, by decide, fun out hout => ?_⟩
  exact (absent_without_capture optsNoCap bothStreams
    [.stdoutData [104, 105], .stderrData [33], .closeEvent (some 0) none]).1
    (by decide) out hout

/-! ## Capture arithmetic -/

lemma capture_append_len (N : Nat) (ks : Option String) (st : AdapterState)
    (cs : List (List Nat)) (d : List Nat) :
    (capture N ks st cs d).2.flatten.length
        = cs.flatten.length + min (N - st.bufferSize) d.length ∧
    (capture N ks st cs d).1.bufferSize
        = st.bufferSize + min (N - st.bufferSize) d.length := by
  unfold capture
  dsimp only
  split
  · refine ⟨?_, rfl⟩
    simp [List.length_take]
  · rename_i hover
    have hle : d.length ≤ N - st.bufferSize := by omega
    refine ⟨?_, rfl⟩
    simp [Nat.min_eq_right hle]

lemma capture_kills_nonempty (N : Nat) (ks : Option String)
    (st : AdapterState) (cs : List (List Nat)) (d : List Nat) (t : Nat)
    (hbs : st.bufferSize = min N t) (hk : N < t → st.kills ≠ []) :
    N < t + d.length → (capture N ks st cs d).1.kills ≠ [] := by
  intro h
  unfold capture
  dsimp only
  split
  · simp
  · rename_i hover
    have ht : N < t := by omega
    exact hk ht

lemma capture_kills_mem (N : Nat) (ks : Option String) (st : AdapterState)
    (cs : List (List Nat)) (d : List Nat)
    (h : ∀ k ∈ st.kills, k = ks.getD "SIGTERM") :
    ∀ k ∈ (capture N ks st cs d).1.kills, k = ks.getD "SIGTERM" := by
  unfold capture
  dsimp only
  split
  · intro k hk
    rcases List.mem_append.mp hk with hk1 | hk1
    · exact h k hk1
    · simpa using hk1
  · exact h

lemma capture_flatten_take (N : Nat) (ks : Option String)
    (st : AdapterState) (cs : List (List Nat)) (d D : List Nat)
    (hbs : st.bufferSize = min N D.length)
    (hflat : cs.flatten = D.take N) :
    (capture N ks st cs d).2.flatten = (D ++ d).take N := by
  unfold capture
  dsimp only
  split
  · rename_i hover
    simp only [List.flatten_append, List.flatten_cons, List.flatten_nil,
      List.append_nil]
    rw [hflat, List.take_append_eq_append_take]
    congr 1
    congr 1
    omega
  · rename_i hover
    simp only [List.flatten_append, List.flatten_cons, List.flatten_nil,
      List.append_nil]
    rw [hflat, List.take_append_eq_append_take]
    congr 1
    have hle : d.length ≤ N - D.length := by omega
    exact (List.take_of_length_le hle).symm

lemma step_stdoutData_eq (opts : Options) (st : AdapterState)
    (cs : List (List Nat)) (d : List Nat)
    (hl : st.listening = true) (hcs : st.stdoutChunks = some cs) :
    step opts st (.stdoutData d) =
      { (capture (maxBufferOf opts) opts.killSignal st cs d).1 with
          stdoutChunks :=
            some (capture (maxBufferOf opts) opts.killSignal st cs d).2 } := by
  simp [step, hl, hcs]

lemma run_stdout_ghost (opts : Options) :
    ∀ (chunks : List (List Nat)) (st : AdapterState) (D : List Nat)
      (cs : List (List Nat)),
      st.listening = true →
      st.stdoutChunks = some cs →
      cs.flatten = D.take (maxBufferOf opts) →
      st.bufferSize = min (maxBufferOf opts) D.length →
      (maxBufferOf opts < D.length → st.kills ≠ []) →
      (∀ k ∈ st.kills, k = opts.killSignal.getD "SIGTERM") →
      (run opts st (chunks.map .stdoutData)).listening = true ∧
      (∃ cs', (run opts st (chunks.map .stdoutData)).stdoutChunks = some cs' ∧
        cs'.flatten = (D ++ chunks.flatten).take (maxBufferOf opts)) ∧
      (run opts st (chunks.map .stdoutData)).bufferSize
        = min (maxBufferOf opts) (D ++ chunks.flatten).length ∧
      (maxBufferOf opts < (D ++ chunks.flatten).length →
        (run opts st (chunks.map .stdoutData)).kills ≠ []) ∧
      (∀ k ∈ (run opts st (chunks.map .stdoutData)).kills,
        k = opts.killSignal.getD "SIGTERM") := by
  intro chunks
  induction chunks with
  | nil =>
    intro st D cs hl hcs hflat hbs hk hkm
    exact ⟨hl, ⟨cs, by simpa using hcs, by simpa using hflat⟩,
      by simpa using hbs, by simpa using hk, hkm⟩
  | cons d rest ih =>
    intro st D cs hl hcs hflat hbs hk hkm
    have hstep := step_stdoutData_eq opts st cs d hl hcs
    have hrun : run opts st ((d :: rest).map .stdoutData)
        = run opts (step opts st (.stdoutData d)) (rest.map .stdoutData) := rfl
    rw [hrun, hstep]
    have hlen := capture_append_len (maxBufferOf opts) opts.killSignal st cs d
    have hres := ih
      { (capture (maxBufferOf opts) opts.killSignal st cs d).1 with
          stdoutChunks :=
            some (capture (maxBufferOf opts) opts.killSignal st cs d).2 }
      (D ++ d) (capture (maxBufferOf opts) opts.killSignal st cs d).2
      (by
        show (capture (maxBufferOf opts) opts.killSignal st cs d).1.listening
          = true
        rw [(capture_proj _ _ _ _ _).2.2.1]
        exact hl)
      rfl
      (capture_flatten_take (maxBufferOf opts) opts.killSignal st cs d D
        hbs hflat)
      (by
        show (capture (maxBufferOf opts) opts.killSignal st cs d).1.bufferSize
          = min (maxBufferOf opts) (D ++ d).length
        rw [hlen.2, hbs]
        simp only [List.length_append]
        omega)
      (by
        show maxBufferOf opts < (D ++ d).length →
          (capture (maxBufferOf opts) opts.killSignal st cs d).1.kills ≠ []
        simp only [List.length_append]
        exact capture_kills_nonempty (maxBufferOf opts) opts.killSignal
          st cs d D.length hbs hk)
      (capture_kills_mem (maxBufferOf opts) opts.killSignal st cs d hkm)
    simpa [List.append_assoc] using hres

/-- C1 counterexample: `maxBuffer: 1`, stdout chunks of 2 bytes then
1 byte (cumulative 3 > 1). The captured buffer is truncated to exactly
1 byte as claimed, but `child.kill` is requested TWICE — once by the
chunk that crosses the cap and once more by the next non-empty chunk —
so the overflow kill is not requested exactly once over the sequence. -/
theorem maxBuffer_kill_twice :
    1 < (([104, 101] : List Nat).length + ([108] : List Nat).length) ∧
    (run opts1 (initState stdoutOnly opts1)
      [.stdoutData [104, 101], .stdoutData [108]]).stdoutChunks
      = some [[104], []] ∧
    (run opts1 (initState stdoutOnly opts1)
      [.stdoutData [104, 101], .stdoutData [108]]).kills
      = ["SIGTERM", "SIGTERM"] ∧
    (run opts1 (initState stdoutOnly opts1)
      [.stdoutData [104, 101], .stdoutData [108]]).kills.length ≠ 1 := by
  refine ⟨by decide, ?_, ?_, ?_⟩ <;> decide

/-- C1 as amended: for `maxBuffer = N` and a stdout chunk sequence
whose cumulative length exceeds N, the captured buffer is the
byte-exact N-byte prefix of the emitted bytes (so its length is exactly
N), and the overflow kill with the configured `killSignal` (default
SIGTERM) is requested at least once — once per chunk that exceeds the
remaining capacity, hence exactly once only when no further non-empty
chunk follows the crossing chunk. -/
theorem maxBuffer_truncation_exact (opts : Options) (N : Nat)
    (hN : opts.maxBuffer = some N) (chunks : List (List Nat))
    (hover : N < chunks.flatten.length) :
    (∃ cs, (run opts (initState stdoutOnly opts)
        (chunks.map .stdoutData)).stdoutChunks = some cs ∧
      cs.flatten = chunks.flatten.take N ∧
      cs.flatten.length = N) ∧
    (run opts (initState stdoutOnly opts) (chunks.map .stdoutData)).kills
      ≠ [] ∧
    (∀ k ∈ (run opts (initState stdoutOnly opts)
        (chunks.map .stdoutData)).kills,
      k = opts.killSignal.getD "SIGTERM") := by
  have hmb : maxBufferOf opts = N := by simp [maxBufferOf, hN]
  have hcap : captureStdio opts = true := by
    simp [captureStdio, hN]
  have hinit : (initState stdoutOnly opts).stdoutChunks = some [] := by
    simp [initState, hcap, stdoutOnly]
  have hres := run_stdout_ghost opts chunks (initState stdoutOnly opts)
    [] [] rfl hinit (by simp) (by simp [initState]) (by simp) (by simp [initState])
  rw [hmb] at hres
  obtain ⟨hl, ⟨cs, hcs, hflat⟩, hbs, hk, hkm⟩ := hres
  simp only [List.nil_append, List.length_nil] at hflat hk
  refine ⟨⟨cs, hcs, hflat, ?_⟩, hk hover, hkm⟩
  rw [hflat, List.length_take]
  omega

/-- Witness for `maxBuffer_truncation_exact`: `maxBuffer: 2`, chunks
of 2 bytes then 3 bytes: captured bytes are the exact 2-byte prefix,
and SIGTERM kill requests were issued. -/
theorem maxBuffer_truncation_exact_witness :
    opts2.maxBuffer = some 2 ∧
    2 < (([104, 101] : List Nat).length
      + ([108, 109, 110] : List Nat).length) ∧
    (∃ cs, (run opts2 (initState stdoutOnly opts2)
        ([[104, 101], [108, 109, 110]].map .stdoutData)).stdoutChunks
        = some cs ∧
      cs.flatten = [104, 101] ∧ cs.flatten.length = 2) ∧
    (run opts2 (initState stdoutOnly opts2)
      ([[104, 101], [108, 109, 110]].map .stdoutData)).kills ≠ [] := by
  have h := maxBuffer_truncation_exact opts2 2 (by decide)
    [[104, 101], [108, 109, 110]] (by decide)
  refine ⟨by decide, by decide, ?_, h.2.1⟩
  obtain ⟨cs, hcs, hflat, hlen⟩ := h.1
  exact ⟨cs, hcs, by simpa using hflat, hlen⟩

lemma step_stderrData_eq (opts : Options) (st : AdapterState)
    (cs : List (List Nat)) (d : List Nat)
    (hl : st.listening = true) (hcs : st.stderrChunks = some cs) :
    step opts st (.stderrData d) =
      { (capture (maxBufferOf opts) opts.killSignal st cs d).1 with
          stderrChunks :=
            some (capture (maxBufferOf opts) opts.killSignal st cs d).2 } := by
  simp [step, hl, hcs]

lemma run_shared_ghost (opts : Options) :
    ∀ (evs : List ChildEvent) (st : AdapterState) (t : Nat),
      dataOnly evs = true →
      st.listening = true →
      st.stdoutChunks.isSome = true →
      st.stderrChunks.isSome = true →
      st.bufferSize = min (maxBufferOf opts) t →
      flatLen st = st.bufferSize →
      (maxBufferOf opts < t → st.kills ≠ []) →
      (run opts st evs).bufferSize
          = min (maxBufferOf opts) (t + totalDataLen evs) ∧
      flatLen (run opts st evs) = (run opts st evs).bufferSize ∧
      (maxBufferOf opts < t + totalDataLen evs →
        (run opts st evs).kills ≠ []) := by
  intro evs
  induction evs with
  | nil =>
    intro st t _ _ _ _ hbs hfl hk
    refine ⟨?_, hfl, ?_⟩ <;> simpa [totalDataLen] using (by assumption)
  | cons ev rest ih =>
    intro st t hdata hl hso hse hbs hfl hk
    cases ev with
    | errorEvent err => simp [dataOnly] at hdata
    | closeEvent c s => simp [dataOnly] at hdata
    | stdoutData d =>
      obtain ⟨co, hco⟩ := Option.isSome_iff_exists.mp hso
      have hstep := step_stdoutData_eq opts st co d hl hco
      have hrun : run opts st (ChildEvent.stdoutData d :: rest)
          = run opts (step opts st (.stdoutData d)) rest := rfl
      have hlen := capture_append_len (maxBufferOf opts) opts.killSignal
        st co d
      have hflat1 : flatLen
          { (capture (maxBufferOf opts) opts.killSignal st co d).1 with
              stdoutChunks :=
                some (capture (maxBufferOf opts) opts.killSignal st co d).2 }
          = (capture (maxBufferOf opts) opts.killSignal st co d).1.bufferSize := by
        simp only [flatLen, Option.getD_some]
        rw [(capture_proj _ _ _ _ _).2.1, hlen.1, hlen.2]
        have : flatLen st = co.flatten.length
            + (st.stderrChunks.getD []).flatten.length := by
          simp [flatLen, hco]
        omega
      have hres := ih
        { (capture (maxBufferOf opts) opts.killSignal st co d).1 with
            stdoutChunks :=
              some (capture (maxBufferOf opts) opts.killSignal st co d).2 }
        (t + d.length)
        (by simpa [dataOnly] using hdata)
        (by
          show (capture (maxBufferOf opts) opts.killSignal st co d).1.listening
            = true
          rw [(capture_proj _ _ _ _ _).2.2.1]
          exact hl)
        (by simp)
        (by
          show ((capture (maxBufferOf opts) opts.killSignal
            st co d).1.stderrChunks).isSome = true
          rw [(capture_proj _ _ _ _ _).2.1]
          exact hse)
        (by
          show (capture (maxBufferOf opts) opts.killSignal st co d).1.bufferSize
            = min (maxBufferOf opts) (t + d.length)
          rw [hlen.2, hbs]
          omega)
        hflat1
        (by
          show maxBufferOf opts < t + d.length →
            (capture (maxBufferOf opts) opts.killSignal st co d).1.kills ≠ []
          exact capture_kills_nonempty (maxBufferOf opts) opts.killSignal
            st co d t hbs hk)
      rw [hrun, hstep]
      have htot : totalDataLen (ChildEvent.stdoutData d :: rest)
          = d.length + totalDataLen rest := by
        simp [totalDataLen, dataLen]
      rw [htot]
      refine ⟨?_, hres.2.1, ?_⟩
      · rw [hres.1]
        congr 1
        omega
      · intro hgt
        exact hres.2.2 (by omega)
    | stderrData d =>
      obtain ⟨ce, hce⟩ := Option.isSome_iff_exists.mp hse
      have hstep := step_stderrData_eq opts st ce d hl hce
      have hrun : run opts st (ChildEvent.stderrData d :: rest)
          = run opts (step opts st (.stderrData d)) rest := rfl
      have hlen := capture_append_len (maxBufferOf opts) opts.killSignal
        st ce d
      have hflat1 : flatLen
          { (capture (maxBufferOf opts) opts.killSignal st ce d).1 with
              stderrChunks :=
                some (capture (maxBufferOf opts) opts.killSignal st ce d).2 }
          = (capture (maxBufferOf opts) opts.killSignal st ce d).1.bufferSize := by
        simp only [flatLen, Option.getD_some]
        rw [(capture_proj _ _ _ _ _).1, hlen.1, hlen.2]
        have : flatLen st = (st.stdoutChunks.getD []).flatten.length
            + ce.flatten.length := by
          simp [flatLen, hce]
        omega
      have hres := ih
        { (capture (maxBufferOf opts) opts.killSignal st ce d).1 with
            stderrChunks :=
              some (capture (maxBufferOf opts) opts.killSignal st ce d).2 }
        (t + d.length)
        (by simpa [dataOnly] using hdata)
        (by
          show (capture (maxBufferOf opts) opts.killSignal st ce d).1.listening
            = true
          rw [(capture_proj _ _ _ _ _).2.2.1]
          exact hl)
        (by
          show ((capture (maxBufferOf opts) opts.killSignal
            st ce d).1.stdoutChunks).isSome = true
          rw [(capture_proj _ _ _ _ _).1]
          exact hso)
        (by simp)
        (by
          show (capture (maxBufferOf opts) opts.killSignal st ce d).1.bufferSize
            = min (maxBufferOf opts) (t + d.length)
          rw [hlen.2, hbs]
          omega)
        hflat1
        (by
          show maxBufferOf opts < t + d.length →
            (capture (maxBufferOf opts) opts.killSignal st ce d).1.kills ≠ []
          exact capture_kills_nonempty (maxBufferOf opts) opts.killSignal
            st ce d t hbs hk)
      rw [hrun, hstep]
      have htot : totalDataLen (ChildEvent.stderrData d :: rest)
          = d.length + totalDataLen rest := by
        simp [totalDataLen, dataLen]
      rw [htot]
      refine ⟨?_, hres.2.1, ?_⟩
      · rw [hres.1]
        congr 1
        omega
      · intro hgt
        exact hres.2.2 (by omega)

/-- C2 counterexample: `maxBuffer: 2`. Stdout emits 2 bytes, then
stderr emits a single 1-byte chunk. Under the claimed per-stream
accounting stderr's own total (1 ≤ 2) would be captured in full with no
overflow; instead the single shared `bufferSize` is already 2, so the
stderr chunk is truncated to zero bytes, the overflow error is recorded
and a kill is issued — stdout's bytes consumed stderr's capacity. -/
theorem per_stream_budget_refuted :
    (run opts2 (initState bothStreams opts2)
      [.stdoutData [104, 101], .stderrData [119]]).stderrChunks
      = some [[]] ∧
    (run opts2 (initState bothStreams opts2)
      [.stdoutData [104, 101], .stderrData [119]]).error
      = some (mkErr "maxBuffer exceeded") ∧
    (run opts2 (initState bothStreams opts2)
      [.stdoutData [104, 101], .stderrData [119]]).kills = ["SIGTERM"] ∧
    ([119] : List Nat).length ≤ 2 := by
  refine ⟨?_, ?_, ?_, by decide⟩ <;> decide

/-- C2 as amended: the cap is a single shared budget. One running byte
total is incremented by captured bytes of both stdout and stderr, so
over any sequence of data events the combined number of captured bytes
across the two streams equals `min maxBuffer totalBytes` — bytes on one
stream reduce the remaining capacity of the other — and once the
combined total exceeds the budget the overflow kill is requested. -/
theorem shared_buffer_budget (opts : Options) (N : Nat)
    (hN : opts.maxBuffer = some N) (evs : List ChildEvent)
    (hdata : dataOnly evs = true) :
    flatLen (run opts (initState bothStreams opts) evs)
        = min N (totalDataLen evs) ∧
    (run opts (initState bothStreams opts) evs).bufferSize
        = min N (totalDataLen evs) ∧
    (N < totalDataLen evs →
      (run opts (initState bothStreams opts) evs).kills ≠ []) := by
  have hmb : maxBufferOf opts = N := by simp [maxBufferOf, hN]
  have hcap : captureStdio opts = true := by simp [captureStdio, hN]
  have hres := run_shared_ghost opts evs (initState bothStreams opts) 0
    hdata rfl
    (by simp [initState, hcap, bothStreams])
    (by simp [initState, hcap, bothStreams])
    (by simp [initState])
    (by simp [flatLen, initState, hcap, bothStreams])
    (by simp [initState])
  rw [hmb] at hres
  simp only [Nat.zero_add] at hres
  exact ⟨hres.1 ▸ hres.2.1, hres.1, hres.2.2⟩

/-- Witness for `shared_buffer_budget`: `maxBuffer: 2` with 2 bytes on
stdout and 1 byte on stderr — combined captured bytes are
`min 2 3 = 2`, and the overflow kill was requested. -/
theorem shared_buffer_budget_witness :
    opts2.maxBuffer = some 2 ∧
    dataOnly [.stdoutData [104, 101], .stderrData [119]] = true ∧
    flatLen (run opts2 (initState bothStreams opts2)
        [.stdoutData [104, 101], .stderrData [119]])
      = min 2 (totalDataLen [.stdoutData [104, 101], .stderrData [119]]) ∧
    (run opts2 (initState bothStreams opts2)
      [.stdoutData [104, 101], .stderrData [119]]).kills ≠ [] := by
  have h := shared_buffer_budget opts2 2 (by decide)
    [.stdoutData [104, 101], .stderrData [119]] (by decide)
  exact ⟨by decide, by decide, h.1, h.2.2 (by decide)⟩
